import Mathlib

/-!
Verification of the abduction repository's event-sourced entity state
synchronization: the mutation log and its SQL snapshot reconstruction
(`abduction-server/queries`), the match-config lookups, and the
client-side projection (`abduction-site/src/lib/game.svelte.ts`,
`logs.ts`, `ring-buffer.svelte.ts`), shallowly embedded in Lean.
-/

/-- An entity as used by the site code: an id, a display `name`, a list of
`markers`, and the (optional) `attributes.hex` position read by
`Game.addLog`.  The full attribute bag is irrelevant to the verified
claims; only the fields the verified code actually reads are modelled. -/
structure Entity where
  entity_id : String
  name : String
  markers : List String
  hex : Option (Int × Int)
deriving DecidableEq, Repr

/-- Mutation type column: `(S)et or (D)elete`
(migration `create_entity_mutation.up.sql`). -/
inductive MutationType where
  | S
  | D
deriving DecidableEq, Repr

/-- A row of the `entity_mutation` table.  `mutation_id INTEGER PRIMARY KEY`
(unique), `entity_id TEXT`, `match_id INTEGER`, `mutation_type` S or D,
`payload JSONB` (nullable, holds an `Entity` for Set mutations),
`timestamp` (informational only, never used for ordering). -/
structure Mutation where
  mutation_id : Nat
  entity_id : String
  match_id : Nat
  mutation_type : MutationType
  payload : Option Entity
  timestamp : Nat
deriving DecidableEq, Repr

/-- A row of the `match_config` table
(migration `create_match_config.up.sql`). -/
structure MatchConfig where
  match_id : Nat
  player_count : Int
  preceding_match_id : Option Nat
  world_radius : Int
  complete : Bool
  created_at : Nat
deriving DecidableEq, Repr

/-- The `match_mutations` CTE of `get_match_config.sql`:
`SELECT * from entity_mutation WHERE match_id = ?`. -/
def matchMutations (rows : List Mutation) (m : Nat) : List Mutation :=
  rows.filter (fun r => r.match_id == m)

/-- Denotation of `ROW_NUMBER() OVER (PARTITION BY entity_id ORDER BY
mutation_id DESC) = 1` in the `latest_mutations` CTE: `r` is ranked first in
its `entity_id` partition of `ms` exactly when no row of the partition has a
larger `mutation_id` (with `mutation_id` a primary key, ranks are
unambiguous). -/
def rowNumOne (ms : List Mutation) (r : Mutation) : Bool :=
  ms.all (fun s => s.entity_id != r.entity_id || decide (s.mutation_id ≤ r.mutation_id))

/-- The snapshot reconstruction query `get_match_config.sql`: scope the
`entity_mutation` rows to the match, keep within each `entity_id` partition
the row ranked first by `mutation_id` descending, keep only
`mutation_type = 'S'`, and return `(entity_id, payload)`. -/
def snapshotQuery (rows : List Mutation) (m : Nat) : List (String × Option Entity) :=
  let ms := matchMutations rows m
  (ms.filter (fun r => rowNumOne ms r && r.mutation_type == MutationType.S)).map
    (fun r => (r.entity_id, r.payload))

/-- All payload entries the query result holds for entity id `e`. -/
def entriesFor (e : String) (l : List (String × Option Entity)) : List (Option Entity) :=
  (l.filter (fun p => p.1 == e)).map (fun p => p.2)

/-- The `latest_match` CTE of `get_incomplete_match_config.sql`:
`SELECT * FROM match_config ORDER BY created_at DESC LIMIT 1`, i.e. the single
row with the greatest `created_at` (first such row on ties). -/
def latestMatch : List MatchConfig → Option MatchConfig
  | [] => none
  | c :: cs => some (cs.foldl (fun a d => if a.created_at < d.created_at then d else a) c)

/-- The full `get_incomplete_match_config.sql` query: take `latest_match`
and keep it only `WHERE complete = false`. -/
def getIncompleteMatchConfig (configs : List MatchConfig) : Option MatchConfig :=
  match latestMatch configs with
  | some c => if c.complete = false then some c else none
  | none => none

theorem latestMatch_aux_spec (cs : List MatchConfig) (a : MatchConfig) :
    (cs.foldl (fun a d => if a.created_at < d.created_at then d else a) a) ∈ a :: cs ∧
      ∀ d ∈ a :: cs, d.created_at ≤
        (cs.foldl (fun a d => if a.created_at < d.created_at then d else a) a).created_at := by
  induction cs generalizing a with
  | nil => simp
  | cons c cs ih =>
    simp only [List.foldl_cons]
    by_cases h : a.created_at < c.created_at
    · simp only [if_pos h]
      obtain ⟨hmem, hmax⟩ := ih c
      simp only [List.mem_cons] at hmem ⊢
      refine ⟨?_, ?_⟩
      · tauto
      · intro d hd
        rcases hd with rfl | hd
        · exact le_of_lt (lt_of_lt_of_le h (hmax c (by simp)))
        · exact hmax d (by simpa using hd)
    · simp only [if_neg h]
      obtain ⟨hmem, hmax⟩ := ih a
      simp only [List.mem_cons] at hmem ⊢
      refine ⟨?_, ?_⟩
      · tauto
      · intro d hd
        rcases hd with rfl | rfl | hd
        · exact hmax d (by simp)
        · exact le_trans (le_of_not_lt h) (hmax a (by simp))
        · exact hmax d (by simp [hd])

theorem latestMatch_spec (configs : List MatchConfig) (hne : configs ≠ []) :
    ∃ c, latestMatch configs = some c ∧ c ∈ configs ∧
      ∀ d ∈ configs, d.created_at ≤ c.created_at := by
  match configs with
  | [] => exact absurd rfl hne
  | c :: cs =>
    obtain ⟨hmem, hmax⟩ := latestMatch_aux_spec cs c
    exact ⟨_, rfl, hmem, hmax⟩

/-- A configuration list on which the claim "if any incomplete match exists,
the lookup returns one" fails: the older match is incomplete, the newer one
complete. -/
def staleIncomplete : MatchConfig :=
  { match_id := 1, player_count := 10, preceding_match_id := none,
    world_radius := 5, complete := false, created_at := 1 }

/-- The most recently created configuration, already complete. -/
def freshComplete : MatchConfig :=
  { match_id := 2, player_count := 10, preceding_match_id := some 1,
    world_radius := 5, complete := true, created_at := 2 }

/-- C3 counterexample: with an older incomplete configuration and a newer
complete one, `get_incomplete_match_config.sql` returns no row at all, even
though an incomplete configuration exists — the `LIMIT 1` is applied before
the `complete = false` filter, so the query is not "first incomplete in
descending creation order". -/
theorem getIncompleteMatchConfig_misses_older_incomplete :
    getIncompleteMatchConfig [staleIncomplete, freshComplete] = none ∧
      staleIncomplete ∈ [staleIncomplete, freshComplete] ∧
      staleIncomplete.complete = false ∧
      freshComplete.complete = true ∧
      staleIncomplete.created_at < freshComplete.created_at := by
  refine ⟨?_, by simp, rfl, rfl, by decide⟩
  rfl

/-- C3 (amended): the lookup considers only the single most recently created
configuration and returns it exactly when its `complete` flag is false;
whenever the most recently created configuration is complete it returns
nothing, even if older incomplete configurations exist. -/
theorem getIncompleteMatchConfig_latest_only (configs : List MatchConfig)
    (c : MatchConfig)
    (hnd : (configs.map MatchConfig.created_at).Nodup)
    (hc : c ∈ configs)
    (hmax : ∀ d ∈ configs, d.created_at ≤ c.created_at) :
    getIncompleteMatchConfig configs = if c.complete = false then some c else none := by
  obtain ⟨b, hb, hbmem, hbmax⟩ := latestMatch_spec configs (by rintro rfl; simp at hc)
  have hbc : b = c := by
    have h1 : b.created_at ≤ c.created_at := hmax b hbmem
    have h2 : c.created_at ≤ b.created_at := hbmax c hc
    exact List.inj_on_of_nodup_map hnd hbmem hc (le_antisymm h1 h2)
  subst hbc
  simp [getIncompleteMatchConfig, hb]

/-- Witness for the amended C3 theorem at a concrete input. -/
theorem getIncompleteMatchConfig_latest_only_witness :
    (([staleIncomplete, freshComplete].map MatchConfig.created_at).Nodup ∧
      freshComplete ∈ [staleIncomplete, freshComplete] ∧
      ∀ d ∈ [staleIncomplete, freshComplete], d.created_at ≤ freshComplete.created_at) ∧
    getIncompleteMatchConfig [staleIncomplete, freshComplete] =
      if freshComplete.complete = false then some freshComplete else none := by
  refine ⟨⟨by decide, by simp, by decide⟩, ?_⟩
  exact getIncompleteMatchConfig_latest_only [staleIncomplete, freshComplete]
    freshComplete (by decide) (by simp) (by decide)

theorem entriesFor_map_pairs (e : String) (l : List Mutation) :
    entriesFor e (l.map (fun r => (r.entity_id, r.payload))) =
      (l.filter (fun r => r.entity_id == e)).map Mutation.payload := by
  induction l with
  | nil => rfl
  | cons r l ih =>
    simp only [entriesFor, List.map_cons, List.filter_cons] at ih ⊢
    by_cases h : r.entity_id = e
    · simp [h, ih]
    · simp [h, ih]

/-- Core characterization of the snapshot query: if `r` is the mutation of
entity `e` with the greatest `mutation_id` in the match, the query's entries
for `e` are exactly `[r.payload]` when `r` is a Set and nothing when `r` is a
Delete. -/
theorem entriesFor_snapshot_core (rows : List Mutation) (m : Nat) (e : String) (r : Mutation)
    (hnd : ((matchMutations rows m).map Mutation.mutation_id).Nodup)
    (hr : r ∈ matchMutations rows m) (hre : r.entity_id = e)
    (hmax : ∀ s ∈ matchMutations rows m, s.entity_id = e → s.mutation_id ≤ r.mutation_id) :
    entriesFor e (snapshotQuery rows m) =
      if r.mutation_type = MutationType.S then [r.payload] else [] := by
  have hms : (matchMutations rows m).Nodup := hnd.of_map
  set ms := matchMutations rows m with hmsdef
  rw [snapshotQuery, entriesFor_map_pairs, List.filter_filter]
  have hcongr : ∀ r' ∈ ms,
      ((r'.entity_id == e) && (rowNumOne ms r' && r'.mutation_type == MutationType.S)) =
        ((r' == r) && (r'.mutation_type == MutationType.S)) := by
    intro r' hr'
    apply Bool.eq_iff_iff.mpr
    simp only [Bool.and_eq_true, beq_iff_eq, rowNumOne, List.all_eq_true, Bool.or_eq_true,
      bne_iff_ne, ne_eq, decide_eq_true_eq]
    constructor
    · rintro ⟨he', hnum, hS⟩
      have h1 : r'.mutation_id ≤ r.mutation_id := hmax r' hr' he'
      have h2 : r.mutation_id ≤ r'.mutation_id := by
        rcases hnum r hr with h | h
        · exact absurd (hre.trans he'.symm) h
        · exact h
      exact ⟨List.inj_on_of_nodup_map hnd hr' hr (le_antisymm h1 h2), hS⟩
    · rintro ⟨rfl, hS⟩
      refine ⟨hre, ?_, hS⟩
      intro s hs
      by_cases hse : s.entity_id = r'.entity_id
      · exact Or.inr (hmax s hs (hse.trans hre))
      · exact Or.inl hse
  rw [List.filter_congr hcongr]
  rcases htype : r.mutation_type with _ | _
  · have hcongr2 : ∀ r' ∈ ms,
        ((r' == r) && (r'.mutation_type == MutationType.S)) = (r' == r) := by
      intro r' _
      by_cases h : r' = r
      · subst h; simp [htype]
      · simp [h]
    rw [List.filter_congr hcongr2, if_pos rfl]
    have hcount : ms.count r = 1 := List.count_eq_one_of_mem hms hr
    rw [List.filter_beq, hcount]
    rfl
  · rw [if_neg (by simp [htype])]
    have : ms.filter (fun r' => (r' == r) && (r'.mutation_type == MutationType.S)) = [] := by
      rw [List.filter_eq_nil_iff]
      intro r' _
      by_cases h : r' = r
      · subst h; simp [htype]
      · simp [h]
    rw [this]
    rfl

/-- C1: for every match, the snapshot reconstruction query returns, for each
entity id with at least one mutation in the match, exactly the mutation with
the maximum `mutation_id` for that entity; the entity appears in the result
(with that mutation's payload) iff the latest mutation is a Set, and is
omitted entirely when the latest mutation is a Delete, regardless of earlier
Sets. -/
theorem snapshotQuery_returns_latest (rows : List Mutation) (m : Nat) (e : String)
    (r : Mutation)
    (hnd : ((matchMutations rows m).map Mutation.mutation_id).Nodup)
    (hr : r ∈ matchMutations rows m) (hre : r.entity_id = e)
    (hmax : ∀ s ∈ matchMutations rows m, s.entity_id = e → s.mutation_id ≤ r.mutation_id) :
    entriesFor e (snapshotQuery rows m) =
      if r.mutation_type = MutationType.S then [r.payload] else [] :=
  entriesFor_snapshot_core rows m e r hnd hr hre hmax

/-- The entities of the repository's test migration
(`create_test_entity.up.sql`). -/
def entityA : Entity :=
  { entity_id := "a", name := "Empty Entity", markers := [], hex := none }

def entityB : Entity :=
  { entity_id := "b", name := "Full Entity", markers := ["player"], hex := none }

def entityC : Entity :=
  { entity_id := "c", name := "Gonna be deleted Entity", markers := [], hex := none }

/-- The mutation log of the repository's test migration: three Sets followed
by a Delete of entity `c`. -/
def testRows : List Mutation :=
  [ { mutation_id := 1, entity_id := "a", match_id := 1,
      mutation_type := MutationType.S, payload := some entityA, timestamp := 0 },
    { mutation_id := 2, entity_id := "b", match_id := 1,
      mutation_type := MutationType.S, payload := some entityB, timestamp := 0 },
    { mutation_id := 3, entity_id := "c", match_id := 1,
      mutation_type := MutationType.S, payload := some entityC, timestamp := 0 },
    { mutation_id := 4, entity_id := "c", match_id := 1,
      mutation_type := MutationType.D, payload := none, timestamp := 0 } ]

/-- The Delete of entity `c` with the highest `mutation_id`. -/
def deleteC : Mutation :=
  { mutation_id := 4, entity_id := "c", match_id := 1,
    mutation_type := MutationType.D, payload := none, timestamp := 0 }

/-- Witness for C1 at the test-migration log: entity `c`, whose latest
mutation is a Delete, is omitted from the snapshot even though an earlier Set
for `c` exists. -/
theorem snapshotQuery_returns_latest_witness :
    (((matchMutations testRows 1).map Mutation.mutation_id).Nodup ∧
      deleteC ∈ matchMutations testRows 1 ∧
      deleteC.entity_id = "c" ∧
      (∀ s ∈ matchMutations testRows 1, s.entity_id = "c" →
        s.mutation_id ≤ deleteC.mutation_id)) ∧
    entriesFor "c" (snapshotQuery testRows 1) =
      (if deleteC.mutation_type = MutationType.S then [deleteC.payload] else []) := by
  refine ⟨⟨by decide, by decide, rfl, by decide⟩, ?_⟩
  exact snapshotQuery_returns_latest testRows 1 "c" deleteC
    (by decide) (by decide) rfl (by decide)

/-- One step of the replay fold: a Set mutation overwrites the map entry at
its `entity_id` with its payload, a Delete erases it — the same Set/Delete
rules `Game.processEvent` applies to its entity map. -/
def applyMutation (mp : String → Option (Option Entity)) (r : Mutation) :
    String → Option (Option Entity) :=
  match r.mutation_type with
  | MutationType.S => fun k => if k = r.entity_id then some r.payload else mp k
  | MutationType.D => fun k => if k = r.entity_id then none else mp k

/-- Folding a mutation sequence, in the order given, into an empty map. -/
def replay (muts : List Mutation) : String → Option (Option Entity) :=
  muts.foldl applyMutation (fun _ => none)

theorem replay_eq_last (muts : List Mutation) (e : String) :
    replay muts e =
      match (muts.filter (fun x => x.entity_id == e)).getLast? with
      | none => none
      | some r =>
        match r.mutation_type with
        | MutationType.S => some r.payload
        | MutationType.D => none := by
  induction muts using List.reverseRecOn with
  | nil => rfl
  | append_singleton l r ih =>
    have hfold : replay (l ++ [r]) = applyMutation (replay l) r := by
      simp [replay, List.foldl_append]
    rw [hfold, List.filter_append]
    by_cases h : r.entity_id = e
    · simp only [List.filter_cons, List.filter_nil, h, beq_self_eq_true, if_true]
      rw [List.getLast?_append_cons]
      rcases htype : r.mutation_type with _ | _ <;>
        simp [applyMutation, htype, h]
    · have hne : (r.entity_id == e) = false := by simp [h]
      simp only [List.filter_cons, hne, Bool.false_eq_true, if_false, List.filter_nil,
        List.append_nil]
      have happ : applyMutation (replay l) r e = replay l e := by
        rcases htype : r.mutation_type with _ | _ <;>
          simp [applyMutation, htype, Ne.symm h]
      rw [happ, ih]

theorem entriesFor_snapshot_empty (rows : List Mutation) (m : Nat) (e : String)
    (h : ∀ s ∈ matchMutations rows m, s.entity_id ≠ e) :
    entriesFor e (snapshotQuery rows m) = [] := by
  rw [snapshotQuery, entriesFor_map_pairs, List.filter_filter]
  have hnil : (matchMutations rows m).filter
      (fun r => (r.entity_id == e) &&
        (rowNumOne (matchMutations rows m) r && r.mutation_type == MutationType.S)) = [] := by
    rw [List.filter_eq_nil_iff]
    intro r hr
    simp [h r hr]
  rw [hnil]
  rfl

theorem le_getLast_of_sorted (l : List Mutation)
    (hs : l.Pairwise (fun a b => a.mutation_id < b.mutation_id)) (r : Mutation)
    (hlast : l.getLast? = some r) : ∀ s ∈ l, s.mutation_id ≤ r.mutation_id := by
  induction l with
  | nil => simp at hlast
  | cons a l ih =>
    cases l with
    | nil =>
      simp only [List.getLast?_singleton, Option.some.injEq] at hlast
      subst hlast
      intro s hs'
      simp only [List.mem_singleton] at hs'
      subst hs'
      exact le_refl _
    | cons b l' =>
      rw [List.getLast?_cons_cons] at hlast
      have hmemr : r ∈ b :: l' := by
        have := List.getLast?_eq_getLast (b :: l') (by simp)
        rw [this] at hlast
        have : (b :: l').getLast (by simp) = r := by injection hlast
        rw [← this]
        exact List.getLast_mem _
      intro s hs'
      rcases List.mem_cons.mp hs' with rfl | hs'
      · exact le_of_lt ((List.pairwise_cons.mp hs).1 r hmemr)
      · exact ih (List.pairwise_cons.mp hs).2 hlast s hs'

theorem getLast?_filter_max (muts : List Mutation) (e : String)
    (hs : muts.Pairwise (fun a b => a.mutation_id < b.mutation_id)) (r : Mutation)
    (hlast : (muts.filter (fun x => x.entity_id == e)).getLast? = some r) :
    r ∈ muts ∧ r.entity_id = e ∧
      ∀ s ∈ muts, s.entity_id = e → s.mutation_id ≤ r.mutation_id := by
  have hmem : r ∈ muts.filter (fun x => x.entity_id == e) := by
    have hne : muts.filter (fun x => x.entity_id == e) ≠ [] := by
      intro hh; rw [hh] at hlast; simp at hlast
    have := List.getLast?_eq_getLast _ hne
    rw [this] at hlast
    have : (muts.filter (fun x => x.entity_id == e)).getLast hne = r := by injection hlast
    rw [← this]
    exact List.getLast_mem _
  obtain ⟨hmuts, hre⟩ := List.mem_filter.mp hmem
  refine ⟨hmuts, by simpa using hre, ?_⟩
  intro s hsmem hse
  have hsf : s ∈ muts.filter (fun x => x.entity_id == e) :=
    List.mem_filter.mpr ⟨hsmem, by simp [hse]⟩
  exact le_getLast_of_sorted _ (hs.filter _) r hlast s hsf

/-- C2: for every mutation sequence of a match (listed in `mutation_id`
order), the window-function snapshot reconstruction of
`get_match_config.sql` agrees, entity by entity, with folding the same
mutations in order into an empty map where a Set overwrites the entry at its
`entity_id` and a Delete erases it. -/
theorem snapshotQuery_eq_replay (rows : List Mutation) (m : Nat) (e : String)
    (hs : (matchMutations rows m).Pairwise (fun a b => a.mutation_id < b.mutation_id)) :
    (entriesFor e (snapshotQuery rows m)).head? = replay (matchMutations rows m) e := by
  rw [replay_eq_last]
  cases hlast : ((matchMutations rows m).filter (fun x => x.entity_id == e)).getLast? with
  | none =>
    have hempty : ∀ s ∈ matchMutations rows m, s.entity_id ≠ e := by
      intro s hsmem hse
      have : (matchMutations rows m).filter (fun x => x.entity_id == e) = [] := by
        simpa using hlast
      have hsf : s ∈ (matchMutations rows m).filter (fun x => x.entity_id == e) :=
        List.mem_filter.mpr ⟨hsmem, by simp [hse]⟩
      rw [this] at hsf
      simp at hsf
    rw [entriesFor_snapshot_empty rows m e hempty]
    rfl
  | some r =>
    obtain ⟨hmem, hre, hmax⟩ := getLast?_filter_max _ e hs r hlast
    have hnd : ((matchMutations rows m).map Mutation.mutation_id).Nodup := by
      exact List.pairwise_map.mpr (hs.imp fun h => Nat.ne_of_lt h)
    rw [entriesFor_snapshot_core rows m e r hnd hmem hre hmax]
    rcases htype : r.mutation_type with _ | _ <;> simp [htype]

/-- Witness for C2 at the test-migration log, looked up at entity `c`. -/
theorem snapshotQuery_eq_replay_witness :
    (matchMutations testRows 1).Pairwise (fun a b => a.mutation_id < b.mutation_id) ∧
      (entriesFor "c" (snapshotQuery testRows 1)).head? =
        replay (matchMutations testRows 1) "c" := by
  refine ⟨by decide, ?_⟩
  exact snapshotQuery_eq_replay testRows 1 "c" (by decide)

/-- `GameLogLevel` from `logs.ts`: if global, shows up everywhere; if local,
only when scoped to the hex/entity. -/
inductive GameLogLevel where
  | global
  | local
deriving DecidableEq, Repr

/-- `BarkSeverity` from `logs.ts`. -/
inductive BarkSeverity where
  | moderate
  | severe
deriving DecidableEq, Repr

/-- `AxialHexDirection` from the generated API, as consumed by
`formatDirection`. -/
inductive AxialHexDirection where
  | east
  | west
  | north_east
  | north_west
  | south_east
  | south_west
deriving DecidableEq, Repr

/-- `MotivatorKey` from the generated API, as consumed by `formatBark`. -/
inductive MotivatorKey where
  | boredom
  | hunger
  | hurt
  | thirst
  | sickness
  | tiredness
  | saturation
  | cold
  | sadness
  | friendliness
deriving DecidableEq, Repr

/-- `Topic` from the generated API, as consumed by `formatChatTopic`. -/
inductive Topic where
  | alien_situation
  | ambitions
  | career
  | entertainment
  | family
  | fears
  | hopes
  | news
  | weather
deriving DecidableEq, Repr

/-- The `kind` discriminator of `GameLog`: every kind `logs.ts` dispatches
on. -/
inductive GameLogKind where
  | weather_change
  | time_of_day_change
  | entity_movement
  | entity_consume
  | entity_drink_from
  | entity_motivator_bark
  | entity_death
  | hazard_hurt
  | entity_start_sleeping
  | entity_keep_sleeping
  | entity_stop_sleeping
  | entity_go_downhill
  | entity_go_to_adjacent_lush
  | entity_fell_in_water_source
  | entity_hesitate_before_consume
  | entity_complain_about_taste
  | entity_cold_because_of_time
  | entity_warm_because_of_time
  | entity_saturated_because_of_rain
  | entity_hit_by_lightning
  | lightning_strike
  | entity_greet
  | entity_mourn_over_corpse
  | entity_upset_by_death
  | entity_chat
  | entity_lose_interest
  | entity_farewell
  | entity_track_being
  | entity_avoid
  | entity_ignore
deriving DecidableEq, Repr

/-- A `GameLog`: the tagged union flattened into one record — `kind` plus
`involved_entities` plus the kind-specific fields `logs.ts` reads (`weather`,
`time_of_day`, the movement direction `by` — named `dir` here because `by` is
reserved in Lean — `motivator`, `motivation`, `response`, `bond`, `topic`).
Fields a given kind does not carry are simply ignored by the code. -/
structure GameLog where
  kind : GameLogKind
  involved_entities : List String
  weather : String
  time_of_day : String
  dir : AxialHexDirection
  motivator : MotivatorKey
  motivation : Rat
  response : Bool
  bond : Rat
  topic : Topic
deriving DecidableEq, Repr

/-- `logLevel` from `logs.ts`: given a game log, determine how important it
is. -/
def logLevel (log : GameLog) : GameLogLevel :=
  if log.involved_entities.length = 0 then GameLogLevel.global
  else if log.kind = GameLogKind.entity_death then GameLogLevel.global
  else if log.kind = GameLogKind.lightning_strike then GameLogLevel.global
  else GameLogLevel.local

/-- `formatDirection` from `logs.ts`. -/
def formatDirection (d : AxialHexDirection) : String :=
  match d with
  | AxialHexDirection.east => "east"
  | AxialHexDirection.west => "west"
  | AxialHexDirection.north_east => "north east"
  | AxialHexDirection.north_west => "north west"
  | AxialHexDirection.south_east => "south east"
  | AxialHexDirection.south_west => "south west"

/-- `formatBark` from `logs.ts`. -/
def formatBark (name : String) (motivator : MotivatorKey) (severity : BarkSeverity) : String :=
  match severity with
  | BarkSeverity.moderate =>
    match motivator with
    | MotivatorKey.boredom => name ++ " twiddles their thumbs"
    | MotivatorKey.hunger => name ++ "\x27s stomach grumbles"
    | MotivatorKey.hurt => name ++ " winces in pain"
    | MotivatorKey.thirst => name ++ " licks their dry lips"
    | MotivatorKey.sickness => name ++ " looks pale"
    | MotivatorKey.tiredness => name ++ " yawns"
    | MotivatorKey.saturation => name ++ " has water dripping off of them"
    | MotivatorKey.cold => name ++ " is shivering"
    | MotivatorKey.sadness => name ++ " is looking glum"
    | MotivatorKey.friendliness => "NA"
  | BarkSeverity.severe =>
    match motivator with
    | MotivatorKey.boredom => name ++ " walks in circles"
    | MotivatorKey.hunger => name ++ "\x27s doubles over in hunger"
    | MotivatorKey.hurt => name ++ " groans in pain"
    | MotivatorKey.thirst => name ++ " coughs dryly"
    | MotivatorKey.sickness => name ++ " vomits"
    | MotivatorKey.tiredness => name ++ " is falling asleep"
    | MotivatorKey.saturation => name ++ " looks absolutely drenched"
    | MotivatorKey.cold => name ++ " looks extremely cold"
    | MotivatorKey.sadness => name ++ " is quietly crying"
    | MotivatorKey.friendliness => "NA"

/-- `formatChatTopic` from `logs.ts`. -/
def formatChatTopic (t : Topic) : String :=
  match t with
  | Topic.alien_situation => "the aliens"
  | Topic.ambitions => "their life ambitions"
  | Topic.career => "their past career"
  | Topic.entertainment => "a tv show they saw recently"
  | Topic.family => "their family back home"
  | Topic.fears => "their innermost fears"
  | Topic.hopes => "their hopes and dreams"
  | Topic.news => "the current going-ons"
  | Topic.weather => "this weather"

/-- A `DecoratedLog` pushed by `Game.addLog`: the game log spread together
with its narrated `message`, its `level`, the hexes of its involved
entities, and a sequential `id`. -/
structure DecoratedLog where
  log : GameLog
  message : String
  level : GameLogLevel
  id : Nat
  involved_hexes : List (Int × Int)
deriving DecidableEq, Repr

/-- The `Game` projection state of `game.svelte.ts`: the map from entity ids
to latest entity states, the log buffer with its counter, the tick id, the
match config and the lifecycle flags.  The `entityUpdateHandlers` callback
list is pure notification plumbing (it never affects the projection state)
and is not modelled. -/
structure Game where
  entities : String → Option Entity
  logs : List DecoratedLog
  logCounter : Nat
  tickId : Nat
  config : Option MatchConfig
  loaded : Bool
  waitingForStart : Bool

/-- The `Game` constructor: empty entity map, empty log buffer, tick 0, no
config, not loaded, not waiting for start. -/
def Game.new : Game :=
  { entities := fun _ => none, logs := [], logCounter := 0, tickId := 0,
    config := none, loaded := false, waitingForStart := false }

/-- `LOG_BUFFER_LIMIT` from `game.svelte.ts`. -/
def LOG_BUFFER_LIMIT : Nat := 1000

/-- The primary narration name of `logMessage`:
`entities?.[0]?.name ?? 'Someone'` where
`entities = log.involved_entities.map((id) => game.entities.get(id))`. -/
def primaryName (log : GameLog) (g : Game) : String :=
  match (log.involved_entities.map g.entities)[0]? with
  | some (some e) => e.name
  | _ => "Someone"

/-- The secondary narration name of `logMessage`:
`entities?.[1]?.name ?? 'Someone'`. -/
def secondaryName (log : GameLog) (g : Game) : String :=
  match (log.involved_entities.map g.entities)[1]? with
  | some (some e) => e.name
  | _ => "Someone"

/-- `logMessage` from `logs.ts`: narrate a game log against the projection,
resolving the first and second involved entities to names. -/
def logMessage (log : GameLog) (g : Game) : Option String :=
  let primary := primaryName log g
  let secondary := secondaryName log g
  match log.kind with
  | GameLogKind.weather_change => some ("The weather is now " ++ log.weather)
  | GameLogKind.time_of_day_change => some ("It is now " ++ log.time_of_day)
  | GameLogKind.entity_movement => some (primary ++ " trekked " ++ formatDirection log.dir)
  | GameLogKind.entity_consume => some (primary ++ " consumed a " ++ secondary)
  | GameLogKind.entity_drink_from => some (primary ++ " drank from the " ++ secondary)
  | GameLogKind.entity_motivator_bark =>
    let severity :=
      if (3 / 4 : Rat) < log.motivation then BarkSeverity.severe else BarkSeverity.moderate
    some (formatBark primary log.motivator severity)
  | GameLogKind.entity_death => some (primary ++ " has died")
  | GameLogKind.hazard_hurt => some (secondary ++ " was damaged by " ++ primary)
  | GameLogKind.entity_start_sleeping => some (primary ++ " lied down and closed their eyes")
  | GameLogKind.entity_keep_sleeping => some (primary ++ " is sleeping soundly")
  | GameLogKind.entity_stop_sleeping => some (primary ++ " wakes up")
  | GameLogKind.entity_go_downhill => some (primary ++ " is heading downhill")
  | GameLogKind.entity_go_to_adjacent_lush => some (primary ++ " spotted a lush location nearby")
  | GameLogKind.entity_fell_in_water_source => some (primary ++ " fell into the " ++ secondary)
  | GameLogKind.entity_hesitate_before_consume =>
    some (primary ++ " goes to eat " ++ secondary ++ ", but hesitates for a second")
  | GameLogKind.entity_complain_about_taste =>
    some (primary ++ " makes a face. The " ++ secondary ++ " tasted horrible!")
  | GameLogKind.entity_cold_because_of_time => some (primary ++ " shivers in the cold wind")
  | GameLogKind.entity_warm_because_of_time => some (primary ++ " warms up a bit in the sun")
  | GameLogKind.entity_saturated_because_of_rain =>
    some (primary ++ " is getting thoroughly rained on")
  | GameLogKind.entity_hit_by_lightning => some (primary ++ " was struck by lightning!")
  | GameLogKind.lightning_strike => some "Lightning struck the ground and started a fire!"
  | GameLogKind.entity_greet =>
    if log.response then
      if log.bond = 0 then some (primary ++ " waves back at " ++ secondary)
      else if log.bond < 3 / 10 then some (primary ++ " nods back at " ++ secondary)
      else if log.bond < 3 / 5 then some (primary ++ " verbally greets " ++ secondary ++ " back")
      else some (primary ++ " hugs " ++ secondary ++ " back")
    else
      if log.bond = 0 then some (primary ++ " waves at " ++ secondary)
      else if log.bond < 3 / 10 then some (primary ++ " nods at " ++ secondary)
      else if log.bond < 3 / 5 then some (primary ++ " verbally greets " ++ secondary)
      else some (primary ++ " hugs " ++ secondary)
  | GameLogKind.entity_mourn_over_corpse =>
    some (primary ++ " has a quiet vigil for " ++ secondary.replace "Corpse of" "")
  | GameLogKind.entity_upset_by_death => some (primary ++ " is upset by witnessing death")
  | GameLogKind.entity_chat =>
    some (primary ++ " chats with " ++ secondary ++ " about " ++ formatChatTopic log.topic)
  | GameLogKind.entity_lose_interest => some (primary ++ " gets distracted from the conversation")
  | GameLogKind.entity_farewell => some (primary ++ " says farewell to " ++ secondary)
  | GameLogKind.entity_track_being => some (primary ++ " follows some tracks on the ground")
  | GameLogKind.entity_avoid => some (primary ++ " is avoiding " ++ secondary)
  | GameLogKind.entity_ignore => some (primary ++ " ignores " ++ secondary)

/-- `Game.addLog`: push the decorated log onto the buffer (the code has only
a TODO where the size limit should be enforced) and advance the counter. -/
def Game.addLog (g : Game) (log : GameLog) : Game :=
  { g with
    logs := g.logs ++
      [{ log := log,
         message := (logMessage log g).getD "...",
         level := logLevel log,
         involved_hexes :=
           log.involved_entities.filterMap (fun e => (g.entities e).bind Entity.hex),
         id := g.logCounter }],
    logCounter := g.logCounter + 1 }

/-- `EntityChange` from the event stream: `set_entity` or `remove_entity`. -/
inductive EntityChange where
  | set_entity (entity : Entity)
  | remove_entity (entity_id : String)
deriving DecidableEq, Repr

/-- `TickEvent` from the event stream: the kinds `Game.processEvent`
dispatches on. -/
inductive TickEvent where
  | start_of_match
  | start_of_tick (tick_id : Nat)
  | entity_changes (changes : List EntityChange)
  | end_of_match
deriving DecidableEq, Repr

/-- One entity change applied to the projection's entity map:
`set_entity` overwrites the entry at `entity.entity_id`, `remove_entity`
deletes the entry. -/
def applyChange (m : String → Option Entity) (c : EntityChange) : String → Option Entity :=
  match c with
  | EntityChange.set_entity e => fun k => if k = e.entity_id then some e else m k
  | EntityChange.remove_entity i => fun k => if k = i then none else m k

/-- `Game.processEvent` from `game.svelte.ts`.  On `start_of_match` the code
calls `location.reload()` ("we need to do a full reset anyway"): the page
reload re-creates the module-level `game = new Game()`, so the resulting
projection is the constructor state.  Otherwise, while `waitingForStart` is
set the event is ignored; else entity changes fold into the map, a
`start_of_tick` updates the tick id, and `end_of_match` sets
`waitingForStart`. -/
def Game.processEvent (g : Game) (ev : TickEvent) : Game :=
  if ev = TickEvent.start_of_match then
    Game.new
  else if g.waitingForStart then
    g
  else
    let g1 :=
      match ev with
      | TickEvent.entity_changes cs => { g with entities := cs.foldl applyChange g.entities }
      | _ => g
    let g2 :=
      match ev with
      | TickEvent.start_of_tick t => { g1 with tickId := t }
      | _ => g1
    match ev with
    | TickEvent.end_of_match => { g2 with waitingForStart := true }
    | _ => g2

/-- C4: processing a `start_of_match` event is an unconditional full reset:
whatever the projection held before — including a live state with a
non-empty entity map — the result is the fresh constructor state, so every
previously known entity id maps to nothing and the tick counter is back at
0; no other effect of the event reaches the old projection. -/
theorem processEvent_start_of_match_resets (g : Game) (i : String) :
    g.processEvent TickEvent.start_of_match = Game.new ∧
      (g.processEvent TickEvent.start_of_match).entities i = none ∧
      (g.processEvent TickEvent.start_of_match).tickId = 0 :=
  ⟨rfl, rfl, rfl⟩

theorem processEvent_waiting (g : Game) (ev : TickEvent)
    (hw : g.waitingForStart = true) (hev : ev ≠ TickEvent.start_of_match) :
    g.processEvent ev = g := by
  unfold Game.processEvent
  rw [if_neg hev, if_pos hw]

theorem processEvent_end_of_match_waiting (g : Game) :
    (g.processEvent TickEvent.end_of_match).waitingForStart = true := by
  unfold Game.processEvent
  by_cases hw : g.waitingForStart = true
  · simp [hw]
  · simp [hw]

theorem foldl_processEvent_waiting (evs : List TickEvent) (g : Game)
    (hw : g.waitingForStart = true)
    (h : ∀ ev ∈ evs, ev ≠ TickEvent.start_of_match) :
    evs.foldl Game.processEvent g = g := by
  induction evs with
  | nil => rfl
  | cons e es ih =>
    rw [List.foldl_cons, processEvent_waiting g e hw (h e (by simp))]
    exact ih (fun ev hev => h ev (by simp [hev]))

/-- C5: once the projection has processed an `end_of_match` event, any
sequence of further events containing no `start_of_match` leaves it
untouched: the whole state — in particular the entity map and the tick
counter — is exactly what it was right after the `end_of_match`. -/
theorem processEvent_quiescent_after_end (g : Game) (evs : List TickEvent)
    (h : ∀ ev ∈ evs, ev ≠ TickEvent.start_of_match) :
    evs.foldl Game.processEvent (g.processEvent TickEvent.end_of_match) =
        g.processEvent TickEvent.end_of_match ∧
      (evs.foldl Game.processEvent (g.processEvent TickEvent.end_of_match)).entities =
        (g.processEvent TickEvent.end_of_match).entities ∧
      (evs.foldl Game.processEvent (g.processEvent TickEvent.end_of_match)).tickId =
        (g.processEvent TickEvent.end_of_match).tickId := by
  have key := foldl_processEvent_waiting evs (g.processEvent TickEvent.end_of_match)
    (processEvent_end_of_match_waiting g) h
  exact ⟨key, by rw [key], by rw [key]⟩

/-- Witness for C5 on a concrete post-match event sequence. -/
theorem processEvent_quiescent_after_end_witness :
    (∀ ev ∈ [TickEvent.start_of_tick 3,
        TickEvent.entity_changes [EntityChange.remove_entity "a"],
        TickEvent.end_of_match], ev ≠ TickEvent.start_of_match) ∧
      ([TickEvent.start_of_tick 3,
        TickEvent.entity_changes [EntityChange.remove_entity "a"],
        TickEvent.end_of_match].foldl Game.processEvent
          (Game.new.processEvent TickEvent.end_of_match) =
        Game.new.processEvent TickEvent.end_of_match) := by
  refine ⟨by decide, ?_⟩
  exact (processEvent_quiescent_after_end Game.new
    [TickEvent.start_of_tick 3,
      TickEvent.entity_changes [EntityChange.remove_entity "a"],
      TickEvent.end_of_match] (by decide)).1

/-- C9: applying the same `SetEntity(e)` change twice in a row leaves the
entity map identical to applying it once, both at the level of the raw map
update and at the level of `Game.processEvent`. -/
theorem set_entity_idempotent (g : Game) (e : Entity) (m : String → Option Entity) :
    ((g.processEvent (TickEvent.entity_changes [EntityChange.set_entity e])).processEvent
          (TickEvent.entity_changes [EntityChange.set_entity e])).entities =
        (g.processEvent (TickEvent.entity_changes [EntityChange.set_entity e])).entities ∧
      applyChange (applyChange m (EntityChange.set_entity e)) (EntityChange.set_entity e) =
        applyChange m (EntityChange.set_entity e) := by
  have happly : ∀ (m' : String → Option Entity),
      applyChange (applyChange m' (EntityChange.set_entity e)) (EntityChange.set_entity e) =
        applyChange m' (EntityChange.set_entity e) := by
    intro m'
    funext k
    by_cases h : k = e.entity_id <;> simp [applyChange, h]
  refine ⟨?_, happly m⟩
  by_cases hw : g.waitingForStart = true
  · simp [Game.processEvent, hw]
  · simp [Game.processEvent, hw, happly]

/-- C7: `logLevel` classifies a log as global exactly when it has zero
involved entities, or its kind is `entity_death`, or its kind is the
global-impact weather event `lightning_strike`; every other log is local. -/
theorem logLevel_global_iff (log : GameLog) :
    (logLevel log = GameLogLevel.global ↔
        (log.involved_entities = [] ∨ log.kind = GameLogKind.entity_death ∨
          log.kind = GameLogKind.lightning_strike)) ∧
      (logLevel log = GameLogLevel.global ∨ logLevel log = GameLogLevel.local) := by
  refine ⟨?_, ?_⟩
  · unfold logLevel
    by_cases h0 : log.involved_entities.length = 0
    · simp [h0, List.length_eq_zero.mp h0]
    · rw [if_neg h0]
      by_cases hd : log.kind = GameLogKind.entity_death
      · simp [hd]
      · rw [if_neg hd]
        by_cases hl : log.kind = GameLogKind.lightning_strike
        · simp [hl]
        · rw [if_neg hl]
          have hne : log.involved_entities ≠ [] := fun hh => h0 (by simp [hh])
          simp [hd, hl, hne]
  · unfold logLevel
    split_ifs <;> simp

/-- C8: for every game log and every projection state, narration resolves
`involved_entities[0]` and `involved_entities[1]` through the projection's
entity map independently: an id present in the map resolves to that entity's
name, while an absent id (or a missing index) degrades, for that entity
alone, to the generic placeholder `"Someone"`; and `logMessage` never fails —
it always produces a message built from the two names so resolved. -/
theorem logMessage_resolves_names (g : Game) (log : GameLog) :
    (primaryName log g =
      match log.involved_entities[0]? with
      | some i =>
        match g.entities i with
        | some e => e.name
        | none => "Someone"
      | none => "Someone") ∧
    (secondaryName log g =
      match log.involved_entities[1]? with
      | some i =>
        match g.entities i with
        | some e => e.name
        | none => "Someone"
      | none => "Someone") ∧
    (logMessage log g).isSome = true := by
  refine ⟨?_, ?_, ?_⟩
  · unfold primaryName
    rw [List.getElem?_map]
    cases hi : log.involved_entities[0]? with
    | none => rfl
    | some i =>
      rw [Option.map_some']
      cases he : g.entities i <;> simp [he]
  · unfold secondaryName
    rw [List.getElem?_map]
    cases hi : log.involved_entities[1]? with
    | none => rfl
    | some i =>
      rw [Option.map_some']
      cases he : g.entities i <;> simp [he]
  · cases hk : log.kind <;> simp [logMessage, hk, apply_ite Option.isSome]

/-- A projection holding exactly the test entity `a`, built by folding a
`set_entity` change. -/
def gameWithA : Game :=
  Game.new.processEvent (TickEvent.entity_changes [EntityChange.set_entity entityA])

/-- A movement log whose only involved entity, `y`, is unknown to
`gameWithA`. -/
def strangerMovementLog : GameLog :=
  { kind := GameLogKind.entity_movement, involved_entities := ["y"],
    weather := "", time_of_day := "", dir := AxialHexDirection.east,
    motivator := MotivatorKey.boredom, motivation := 0, response := false,
    bond := 0, topic := Topic.weather }

/-- A consume log whose primary involved entity `a` is known to `gameWithA`
while the secondary, `y`, is not. -/
def strangerConsumeLog : GameLog :=
  { kind := GameLogKind.entity_consume, involved_entities := ["a", "y"],
    weather := "", time_of_day := "", dir := AxialHexDirection.east,
    motivator := MotivatorKey.boredom, motivation := 0, response := false,
    bond := 0, topic := Topic.weather }

/-- Witness for C8 on the mixed case: the present primary entity resolves to
its name, the absent secondary degrades to the placeholder for that entity
alone, and the narrated message uses both. -/
theorem logMessage_resolves_names_witness :
    primaryName strangerConsumeLog gameWithA = "Empty Entity" ∧
      secondaryName strangerConsumeLog gameWithA = "Someone" ∧
      logMessage strangerConsumeLog gameWithA = some "Empty Entity consumed a Someone" := by
  have h := logMessage_resolves_names gameWithA strangerConsumeLog
  refine ⟨?_, ?_, ?_⟩
  · rw [h.1]
    rfl
  · rw [h.2.1]
    rfl
  · rfl

theorem addLog_length (g : Game) (log : GameLog) :
    (g.addLog log).logs.length = g.logs.length + 1 := by
  simp [Game.addLog]

/-- A sequence of `addLog` calls. -/
def addLogs (g : Game) (ls : List GameLog) : Game :=
  ls.foldl Game.addLog g

theorem addLogs_length (g : Game) (ls : List GameLog) :
    (addLogs g ls).logs.length = g.logs.length + ls.length := by
  induction ls generalizing g with
  | nil => rfl
  | cons l ls ih =>
    rw [addLogs, List.foldl_cons, ← addLogs, ih, addLog_length]
    simp only [List.length_cons]
    omega

/-- C6 is violated by the code: `Game.addLog` only pushes (its size limit is
a TODO), so after `LOG_BUFFER_LIMIT + 1` calls on a fresh projection the
buffer holds 1001 entries — strictly more than the claimed fixed capacity
`LOG_BUFFER_LIMIT = 1000` — and no entry was ever evicted. -/
theorem addLog_exceeds_buffer_limit :
    (addLogs Game.new (List.replicate (LOG_BUFFER_LIMIT + 1) strangerMovementLog)).logs.length =
        LOG_BUFFER_LIMIT + 1 ∧
      LOG_BUFFER_LIMIT <
        (addLogs Game.new
          (List.replicate (LOG_BUFFER_LIMIT + 1) strangerMovementLog)).logs.length := by
  have h := addLogs_length Game.new (List.replicate (LOG_BUFFER_LIMIT + 1) strangerMovementLog)
  rw [List.length_replicate] at h
  have hz : Game.new.logs.length = 0 := rfl
  rw [hz] at h
  rw [h]
  exact ⟨by omega, by omega⟩

/-- The ring buffer of `ring-buffer.svelte.ts`.  Its backing JS array may in
principle hold empty slots, so items are modelled as `Option`s (`none` is a
hole); `pos` is the write position, `size` the capacity. -/
structure RingBuffer (T : Type) where
  items : List (Option T)
  size : Nat
  pos : Nat

/-- The `RingBuffer` constructor: empty array, write position 0. -/
def RingBuffer.new (T : Type) (size : Nat) : RingBuffer T :=
  { items := [], size := size, pos := 0 }

/-- JS array element assignment `l[i] = x`: in-bounds indices are
overwritten; writing past the end extends the array to length `i + 1`,
filling the gap with holes. -/
def jsArraySet {T : Type} (l : List (Option T)) (i : Nat) (x : T) : List (Option T) :=
  if i < l.length then l.set i (some x)
  else l ++ List.replicate (i - l.length) none ++ [some x]

/-- One item of `RingBuffer.add`: `this.items[this.pos] = item;
this.pos = (this.pos + 1) % this.size`. -/
def RingBuffer.add1 {T : Type} (b : RingBuffer T) (item : T) : RingBuffer T :=
  { b with items := jsArraySet b.items b.pos item, pos := (b.pos + 1) % b.size }

/-- `RingBuffer.add(...items)`: fold `add1` over the items in order. -/
def RingBuffer.add {T : Type} (b : RingBuffer T) (items : List T) : RingBuffer T :=
  items.foldl RingBuffer.add1 b

/-- A sequence of `add` calls. -/
def RingBuffer.addCalls {T : Type} (b : RingBuffer T) (calls : List (List T)) : RingBuffer T :=
  calls.foldl RingBuffer.add b

/-- The ring-buffer invariant: the write position is strictly below the
capacity and within the array, and the array never outgrows the capacity. -/
def RingBuffer.Inv {T : Type} (b : RingBuffer T) : Prop :=
  b.pos < b.size ∧ b.pos ≤ b.items.length ∧ b.items.length ≤ b.size

theorem jsArraySet_length_of_le {T : Type} (l : List (Option T)) (i : Nat) (x : T)
    (h : i ≤ l.length) : (jsArraySet l i x).length = max l.length (i + 1) := by
  unfold jsArraySet
  by_cases hlt : i < l.length
  · rw [if_pos hlt, List.length_set]
    omega
  · rw [if_neg hlt]
    simp only [List.length_append, List.length_replicate, List.length_singleton]
    omega

theorem RingBuffer.add1_inv {T : Type} (b : RingBuffer T) (x : T) (h : b.Inv) :
    (b.add1 x).Inv := by
  obtain ⟨h1, h2, h3⟩ := h
  have hsz : 0 < b.size := Nat.lt_of_le_of_lt (Nat.zero_le _) h1
  have hlen : ((b.add1 x).items).length = max b.items.length (b.pos + 1) := by
    simp only [RingBuffer.add1]
    exact jsArraySet_length_of_le b.items b.pos x h2
  have hsize : (b.add1 x).size = b.size := rfl
  have hpos : (b.add1 x).pos = (b.pos + 1) % b.size := rfl
  refine ⟨?_, ?_, ?_⟩
  · rw [hpos, hsize]
    exact Nat.mod_lt (b.pos + 1) hsz
  · have hmod : (b.pos + 1) % b.size ≤ b.pos + 1 := Nat.mod_le _ _
    rw [hpos, hlen]
    omega
  · rw [hlen, hsize]
    omega

theorem RingBuffer.add_inv {T : Type} (b : RingBuffer T) (items : List T) (h : b.Inv) :
    (b.add items).Inv := by
  induction items generalizing b with
  | nil => exact h
  | cons x xs ih =>
    rw [RingBuffer.add, List.foldl_cons]
    exact ih _ (b.add1_inv x h)

theorem RingBuffer.addCalls_inv {T : Type} (b : RingBuffer T) (calls : List (List T))
    (h : b.Inv) : (b.addCalls calls).Inv := by
  induction calls generalizing b with
  | nil => exact h
  | cons c cs ih =>
    rw [RingBuffer.addCalls, List.foldl_cons]
    exact ih _ (b.add_inv c h)

theorem RingBuffer.add_size {T : Type} (b : RingBuffer T) (items : List T) :
    (b.add items).size = b.size := by
  induction items generalizing b with
  | nil => rfl
  | cons x xs ih =>
    rw [RingBuffer.add, List.foldl_cons]
    exact ih (b.add1 x)

theorem RingBuffer.addCalls_size {T : Type} (b : RingBuffer T) (calls : List (List T)) :
    (b.addCalls calls).size = b.size := by
  induction calls generalizing b with
  | nil => rfl
  | cons c cs ih =>
    rw [RingBuffer.addCalls, List.foldl_cons]
    exact (ih (b.add c)).trans (b.add_size c)

/-- C10: starting from a ring buffer of capacity `size ≥ 1`, after any
sequence of `add` calls the backing array holds at most `size` slots and the
write position is in `[0, size)` — reaching capacity overwrites instead of
growing. -/
theorem ringBuffer_bounded {T : Type} (size : Nat) (h : 1 ≤ size) (calls : List (List T)) :
    ((RingBuffer.new T size).addCalls calls).items.length ≤ size ∧
      ((RingBuffer.new T size).addCalls calls).pos < size := by
  have hinv : (RingBuffer.new T size).Inv := ⟨h, Nat.le_refl _, Nat.zero_le _⟩
  obtain ⟨h1, _, h3⟩ := (RingBuffer.new T size).addCalls_inv calls hinv
  have hsz := (RingBuffer.new T size).addCalls_size calls
  rw [hsz] at h1 h3
  exact ⟨h3, h1⟩

/-- Witness for C10 at capacity 2 with three items added across two calls. -/
theorem ringBuffer_bounded_witness :
    (1 ≤ 2) ∧
      ((RingBuffer.new Nat 2).addCalls [[10, 20], [30]]).items.length ≤ 2 ∧
      ((RingBuffer.new Nat 2).addCalls [[10, 20], [30]]).pos < 2 := by
  refine ⟨by decide, ?_⟩
  exact ringBuffer_bounded 2 (by decide) [[10, 20], [30]]
